import Mathlib

/-!
Shallow embedding of the report-lifecycle and moderation workflow of the
community issue-reporting application (sources: `AccountScreen.tsx`,
`utils/irishCounties.ts`, the admin dashboard, the feed screen, the
leaderboard screens and the scheduled message sweep).

Conventions of the embedding:
* JS strings are `String`; a JS `string | null` argument is `Option String`
  and the falsy test `!s` covers both `none` and the empty string.
* Timestamps are natural numbers counting milliseconds; the client clock and
  the server-assigned timestamp are modelled by the same `now` parameter.
* JS numbers used in geometry are real numbers; the transcendental haversine
  distance is therefore noncomputable, and the loop structure around it is
  kept computable by abstracting the radius test as a boolean parameter.
* Firestore documents are association lists / records; a query is a filter
  over the backing list; `addDoc` appends; `updateDoc` maps over documents
  matching the storage id.
* Each moderation handler is rendered as the list of writes it commits, in
  program order, so that sequencing claims can be stated about the list.
-/

namespace InfraApp

/-- Report status stored on report documents: `pending`, `approved`,
`completed`; decline is realized as deletion, not a stored status. -/
inductive Status where
  | pending
  | approved
  | completed
deriving DecidableEq

/-- The `type` field of a notification message. -/
inductive MessageType where
  | approval
  | decline
  | general
deriving DecidableEq

/-- Geographic coordinates of a location fix (JS numbers modelled as reals). -/
structure Coords where
  latitude : ℝ
  longitude : ℝ

/-- A report document, as written by `uploadReport` and read by the admin
dashboard and feed (the aggregate `upvotes` field is read as `upvotes || 0`,
so it is total here). `id` is the caller-generated id, `docId` the
storage-assigned document id. -/
structure Report where
  id : String
  docId : String
  imageUrl : String
  category : String
  description : String
  addressLine1 : String
  addressLine2 : String
  county : Option String
  eircode : String
  location : Option Coords
  timestamp : Nat
  userId : String
  status : Status
  assigned : Option String
  upvotes : Int

/-- A notification message document, as written by the moderation handlers. -/
structure Message where
  userId : String
  title : String
  content : String
  type : MessageType
  reportId : String
  createdAt : Nat
  read : Bool
  expiresAt : Nat
deriving DecidableEq

/-- The two collections the moderation workflow touches. -/
structure DB where
  reports : List Report
  messages : List Message

/-- Milliseconds in one hour. -/
def msPerHour : Nat := 3600000

/-- `d.setHours(d.getHours() + h)`: advancing a timestamp by `h` hours. -/
def addHours (t : Nat) (h : Nat) : Nat := t + h * msPerHour

/-- The reference list of the 32 Irish counties from `utils/irishCounties.ts`,
each stored with the fixed `"Co. "` prefix. -/
def irishCounties : List String :=
  ["Co. Antrim", "Co. Armagh", "Co. Carlow", "Co. Cavan", "Co. Clare",
   "Co. Cork", "Co. Derry", "Co. Donegal", "Co. Down", "Co. Dublin",
   "Co. Fermanagh", "Co. Galway", "Co. Kerry", "Co. Kildare", "Co. Kilkenny",
   "Co. Laois", "Co. Leitrim", "Co. Limerick", "Co. Longford", "Co. Louth",
   "Co. Mayo", "Co. Meath", "Co. Monaghan", "Co. Offaly", "Co. Roscommon",
   "Co. Sligo", "Co. Tipperary", "Co. Tyrone", "Co. Waterford",
   "Co. Westmeath", "Co. Wexford", "Co. Wicklow"]

/-- JS `String.prototype.toLowerCase`, modelled characterwise. -/
def toLowerStr (s : String) : String := String.mk (s.data.map Char.toLower)

/-- JS `String.prototype.startsWith`, modelled on the character list. -/
def strStartsWith (s p : String) : Bool := p.data.isPrefixOf s.data

/-- `isValidCounty` from `utils/irishCounties.ts`. The `Option` input models a
possibly-null JS string; `none` and `""` are the falsy inputs rejected by the
`!county` guard. If the input lacks the `"Co. "` prefix it is prepended, then
the result is compared case-insensitively against the reference list. -/
def isValidCounty (county : Option String) : Bool :=
  match county with
  | none => false
  | some c =>
    if c = "" then false
    else
      let countyWithPrefix := if strStartsWith c "Co. " then c else "Co. " ++ c
      irishCounties.any fun validCounty =>
        toLowerStr validCounty == toLowerStr countyWithPrefix

/-- JS `Math.atan2 y x`, by the standard piecewise characterization. -/
noncomputable def atan2 (y x : ℝ) : ℝ :=
  if 0 < x then Real.arctan (y / x)
  else if x < 0 then
    (if 0 ≤ y then Real.arctan (y / x) + Real.pi
     else Real.arctan (y / x) - Real.pi)
  else
    (if 0 < y then Real.pi / 2 else if y < 0 then -(Real.pi / 2) else 0)

/-- `calculateDistance` from `AccountScreen.tsx`: haversine great-circle
distance in meters with Earth radius `R = 6371e3`. -/
noncomputable def calculateDistance (lat1 lon1 lat2 lon2 : ℝ) : ℝ :=
  let R : ℝ := 6371000
  let phi1 := lat1 * Real.pi / 180
  let phi2 := lat2 * Real.pi / 180
  let dphi := (lat2 - lat1) * Real.pi / 180
  let dlam := (lon2 - lon1) * Real.pi / 180
  let a := Real.sin (dphi / 2) * Real.sin (dphi / 2) +
    Real.cos phi1 * Real.cos phi2 * Real.sin (dlam / 2) * Real.sin (dlam / 2)
  let c := 2 * atan2 (Real.sqrt a) (Real.sqrt (1 - a))
  R * c

/-- The body of the duplicate loop's distance test: the haversine distance
from the current fix to a candidate's stored fix is at most
`RADIUS_METERS = 50`. -/
noncomputable def haversineNear (p q : Coords) : Bool :=
  decide (calculateDistance p.latitude p.longitude q.latitude q.longitude ≤ 50)

/-- `checkDuplicateReport` from `AccountScreen.tsx`, with the radius test
abstracted as `near`: query the user's reports in `pending` status and return
true iff some candidate that has a stored location passes the radius test.
Candidates without a stored location are skipped. -/
def checkDuplicateReportWith (near : Coords → Coords → Bool) (db : DB)
    (uid : String) (cur : Coords) : Bool :=
  (db.reports.filter fun r =>
      r.userId == uid && r.status == Status.pending).any fun r =>
    match r.location with
    | some c => near cur c
    | none => false

/-- `checkDuplicateReport` with the radius test instantiated to the source's
haversine comparison against 50 meters. -/
noncomputable def checkDuplicateReport (db : DB) (uid : String)
    (cur : Coords) : Bool :=
  checkDuplicateReportWith haversineNear db uid cur

/-- Outcome of one pass through the try-block of `verifyImageWithChatGPT`:
either the parsed `isVerified` verdict of a 200 response, or a thrown error
whose `status` field may or may not be 429 (`is429`). -/
inductive AttemptResult where
  | success (verdict : Bool)
  | failure (is429 : Bool) (msg : String)
deriving DecidableEq

/-- `verifyImageWithChatGPT` from `AccountScreen.tsx`, driven by the list of
outcomes of its successive attempts. Each attempt first sleeps 1000 ms; a
thrown error with `status === 429` sleeps a further 5000 ms and recurses on
the remaining outcomes; any other thrown error propagates at once. Returns
the list of sleeps performed, in order, and the overall result. The source
recursion has no retry counter, so it consumes rate-limited outcomes for as
long as they keep arriving; an exhausted outcome list stands for a run whose
observed finite trace ended while still retrying. -/
def verifyImageWithChatGPT : List AttemptResult → List Nat × Except String Bool
  | [] => ([], Except.error "Failed to verify image with AI")
  | AttemptResult.success v :: _ => ([1000], Except.ok v)
  | AttemptResult.failure true _ :: rest =>
    let r := verifyImageWithChatGPT rest
    (1000 :: 5000 :: r.1, r.2)
  | AttemptResult.failure false msg :: _ => ([1000], Except.error msg)

/-- The component state consulted by `uploadReport` and `isLocationValid`:
the form fields, the location fix and its reported accuracy (a JS
`number | null`, kept rational so the `> 100` test stays decidable), and the
caller-generated submission id. -/
structure SubmitForm where
  imageUri : String
  selectedCategory : String
  description : String
  addressLine1 : String
  addressLine2 : String
  county : String
  eircode : String
  location : Option Coords
  locationAccuracy : Option ℚ
  uniqueId : String

/-- `isLocationValid` from `AccountScreen.tsx`: a fix must exist, a reported
accuracy that is truthy and greater than 100 meters rejects the fix, and at
least one of address line 1 / county / eircode must be populated. -/
def isLocationValid (f : SubmitForm) : Bool :=
  match f.location with
  | none => false
  | some _ =>
    if (match f.locationAccuracy with
        | some acc => decide (100 < acc)
        | none => false) then false
    else f.addressLine1 != "" || f.county != "" || f.eircode != ""

/-- The user-facing outcome of one `uploadReport` call, one constructor per
toast the source can show on that path. -/
inductive SubmitOutcome where
  | missingFields
  | invalidCounty
  | invalidLocation
  | duplicate
  | validationFailed
  | uploadFailed (msg : String)
  | submitted
deriving DecidableEq

/-- A write committed by `uploadReport`. -/
inductive UploadEffect where
  | uploadBlob (path : String)
  | createReport (r : Report)

/-- Result of one `uploadReport` call: outcome, writes in program order, and
the form state it leaves behind. -/
structure UploadResult where
  outcome : SubmitOutcome
  effects : List UploadEffect
  form : SubmitForm

/-- `uploadReport` from `AccountScreen.tsx`. Guards run in source order:
missing required fields, invalid county, invalid location, then (only when a
fix exists) the duplicate check. Only then is the image verified: an error
surfaces as the catch-all upload failure; a `false` verdict aborts without
writes, clears image/category/description and installs the caller-supplied
fresh id; a `true` verdict uploads the blob and creates the pending report
(`verify` is the verification outcome, `newDocId` the storage-assigned id,
`downloadURL` the blob URL, all resolved by the external services). -/
def uploadReport (near : Coords → Coords → Bool) (f : SubmitForm)
    (uid : String) (db : DB) (verify : Except String Bool) (freshId : String)
    (now : Nat) (newDocId : String) (downloadURL : String) : UploadResult :=
  if f.imageUri = "" ∨ f.selectedCategory = "" ∨ f.description = "" ∨
      f.addressLine1 = "" ∨ f.county = "" ∨ f.eircode = "" then
    ⟨SubmitOutcome.missingFields, [], f⟩
  else if !isValidCounty (some f.county) then
    ⟨SubmitOutcome.invalidCounty, [], f⟩
  else if !isLocationValid f then
    ⟨SubmitOutcome.invalidLocation, [], f⟩
  else if (match f.location with
           | some loc => checkDuplicateReportWith near db uid loc
           | none => false) then
    ⟨SubmitOutcome.duplicate, [], f⟩
  else
    match verify with
    | Except.error msg => ⟨SubmitOutcome.uploadFailed msg, [], f⟩
    | Except.ok false =>
      ⟨SubmitOutcome.validationFailed, [],
        { f with imageUri := "", selectedCategory := "", description := "",
                 uniqueId := freshId }⟩
    | Except.ok true =>
      ⟨SubmitOutcome.submitted,
        [UploadEffect.uploadBlob ("reports/" ++ f.uniqueId ++ ".jpg"),
         UploadEffect.createReport
           { id := f.uniqueId
             docId := newDocId
             imageUrl := downloadURL
             category := f.selectedCategory
             description := f.description
             addressLine1 := f.addressLine1
             addressLine2 := f.addressLine2
             county := some f.county
             eircode := f.eircode
             location := f.location
             timestamp := now
             userId := uid
             status := Status.pending
             assigned := none
             upvotes := 0 }], f⟩

/-- Admin dashboard session state consulted by the moderation handlers: the
signed-in admin and the in-flight guard `processingId`. -/
structure AdminSession where
  uid : String
  processingId : Option String

/-- A write committed by a moderation handler. -/
inductive Effect where
  | updateStatus (docId : String) (s : Status)
  | deleteReport (docId : String)
  | addMessage (m : Message)

/-- `getDocs(query(reports, where("id", "==", reportId))).docs[0]`: the first
report whose caller-generated id matches. -/
def findByGenId (db : DB) (reportId : String) : Option Report :=
  db.reports.find? fun r => r.id == reportId

/-- `getDoc(doc(db, "reports", docId))`: the report at a storage id. -/
def findByDocId (db : DB) (docId : String) : Option Report :=
  db.reports.find? fun r => r.docId == docId

/-- `handleApprove` from the admin dashboard: bail out silently when the
in-flight guard holds the same storage id; look the report up by its
caller-generated id (a missing result throws before any write, so `none`);
require the `updateDoc` target to exist; then commit, in order, the status
update to `approved` and one `approval` message to the report's owner
expiring two hours after `now`. -/
def handleApprove (sess : AdminSession) (db : DB) (now : Nat)
    (reportId docId : String) : Option (List Effect) :=
  if sess.processingId == some docId then some []
  else
    match findByGenId db reportId with
    | none => none
    | some reportData =>
      if db.reports.any (fun r => r.docId == docId) then
        some [Effect.updateStatus docId Status.approved,
              Effect.addMessage
                { userId := reportData.userId
                  title := "Report Approved"
                  content := "Your report about \"" ++ reportData.category ++
                    "\" has been approved."
                  type := MessageType.approval
                  reportId := reportId
                  createdAt := now
                  read := false
                  expiresAt := addHours now 2 }]
      else none

/-- `handleComplete` from the admin dashboard: bail out silently on the
in-flight guard; `getDoc` the report by storage id and throw (`none`) when it
does not exist; then commit, in order, the status update to `completed` and
one `general` message to the report's owner expiring two hours after `now`.
The signed-in admin (`sess.uid`) is not consulted anywhere in the body. -/
def handleComplete (sess : AdminSession) (db : DB) (now : Nat)
    (reportId docId : String) : Option (List Effect) :=
  if sess.processingId == some docId then some []
  else
    match findByDocId db docId with
    | none => none
    | some reportData =>
      some [Effect.updateStatus docId Status.completed,
            Effect.addMessage
              { userId := reportData.userId
                title := "Report Completed"
                content := "Your report about \"" ++ reportData.category ++
                  "\" has been marked as completed."
                type := MessageType.general
                reportId := reportId
                createdAt := now
                read := false
                expiresAt := addHours now 2 }]

/-- Interpretation of one committed write against the two collections. -/
def applyEffect (db : DB) : Effect → DB
  | Effect.updateStatus d s =>
    { db with reports := db.reports.map fun r =>
        if r.docId == d then { r with status := s } else r }
  | Effect.deleteReport d =>
    { db with reports := db.reports.filter fun r => !(r.docId == d) }
  | Effect.addMessage m => { db with messages := db.messages ++ [m] }

/-- Interpretation of a write list, in order. -/
def applyEffects (db : DB) (es : List Effect) : DB := es.foldl applyEffect db

/-- `fetchAssignedReports` from the admin dashboard: the reports whose
`assigned` field is the signed-in admin and whose status is `approved`. -/
def fetchAssignedReports (db : DB) (uid : String) : List Report :=
  db.reports.filter fun r =>
    r.assigned == some uid && r.status == Status.approved

/-- The feed screen state touched by `handleUpvote`: the reports collection,
the `userUpvotes` collection (one document per user, fields keyed by report
id with integer values), and the component's local boolean upvote cache. -/
structure FeedState where
  reports : List Report
  upvoteDocs : List (String × List (String × Int))
  localUpvotes : String → Bool

/-- Firestore `updateDoc(ref, { [key]: v })` on a document's field map: set
the field, replacing any previous binding. -/
def setField (fields : List (String × Int)) (key : String) (v : Int) :
    List (String × Int) :=
  (key, v) :: fields.eraseP fun kv => kv.1 == key

/-- The stored per-user per-report upvote flag, read as the integer field
value with missing document or missing field defaulting to 0. -/
def flagValue (st : FeedState) (uid reportId : String) : Int :=
  match st.upvoteDocs.lookup uid with
  | none => 0
  | some fields => (fields.lookup reportId).getD 0

/-- `handleUpvote` from the feed screen: read the local cache to decide the
direction; `increment(±1)` the report's aggregate counter; then write the
per-user flag (`0` when removing, `1` when adding) into the user's
`userUpvotes` document, creating the document as `{ [reportId]: 1 }` when it
does not exist; finally flip the local cache entry. -/
def handleUpvote (st : FeedState) (uid reportId docId : String) : FeedState :=
  let hasUpvoted := st.localUpvotes reportId
  let reports' := st.reports.map fun r =>
    if r.docId == docId then
      { r with upvotes := r.upvotes + (if hasUpvoted then -1 else 1) }
    else r
  let docs' :=
    match st.upvoteDocs.lookup uid with
    | some _ =>
      st.upvoteDocs.map fun kv =>
        if kv.1 == uid then
          (kv.1, setField kv.2 reportId (if hasUpvoted then 0 else 1))
        else kv
    | none => (uid, [(reportId, 1)]) :: st.upvoteDocs
  { reports := reports'
    upvoteDocs := docs'
    localUpvotes := fun k => if k == reportId then !hasUpvoted
                             else st.localUpvotes k }

/-- One leaderboard entry (`CountyStats` in the leaderboard screen). -/
structure CountyStats where
  county : String
  points : Nat
  completedReports : Nat
deriving DecidableEq

/-- `data.county || "Unknown"`: the bucket key of a report, with a missing or
empty county string falling into the literal `"Unknown"` bucket. -/
def countyKey (r : Report) : String :=
  match r.county with
  | none => "Unknown"
  | some c => if c = "" then "Unknown" else c

/-- One step of the `forEach` accumulation: credit a completed report's
bucket with 10 points and one completed report, creating the bucket on first
sight (JS object insertion-order semantics: updates in place, new keys at the
end). -/
def bump (acc : List CountyStats) (county : String) : List CountyStats :=
  if acc.any (fun s => s.county == county) then
    acc.map fun s =>
      if s.county == county then
        { s with points := s.points + 10,
                 completedReports := s.completedReports + 1 }
      else s
  else acc ++ [{ county := county, points := 10, completedReports := 1 }]

/-- The `countyData` record after the `forEach`, as its insertion-ordered
value list. -/
def buildBuckets (keys : List String) : List CountyStats :=
  keys.foldl bump []

/-- `fetchLeaderboardData` from the leaderboard screen: query the reports in
`completed` status, accumulate per-county buckets, and sort the bucket values
descending by points (`(a, b) => b.points - a.points`, modelled by a stable
sort). -/
def fetchLeaderboardData (db : DB) : List CountyStats :=
  let completed := db.reports.filter fun r => r.status == Status.completed
  let buckets := buildBuckets (completed.map countyKey)
  buckets.insertionSort fun a b => b.points ≤ a.points

/-- `fetchMessages` from `AccountScreen.tsx`: the query keeps exactly the
signed-in user's messages whose `expiresAt` is strictly later than `new
Date()` at query time, ordered by `expiresAt` descending. -/
def fetchMessages (db : DB) (uid : String) (now : Nat) : List Message :=
  (db.messages.filter fun m =>
      m.userId == uid && decide (now < m.expiresAt)).insertionSort
    fun a b => b.expiresAt ≤ a.expiresAt

/-- `deleteExpiredMessages` from `functions/src/index.ts`: the hourly sweep
deletes every message whose `expiresAt` is strictly before `now`. -/
def deleteExpiredMessages (db : DB) (now : Nat) : DB :=
  { db with messages := db.messages.filter fun m => !decide (m.expiresAt < now) }

/-- Invariant carried through the leaderboard `forEach`: `acc` is the bucket
list after processing the bucket keys `p`, with per-bucket counts matching
occurrence counts in `p`, points at 10 per counted report, no duplicate
bucket, and buckets for exactly the keys seen so far. -/
def bucketsInv (acc : List CountyStats) (p : List String) : Prop :=
  (∀ e ∈ acc, e.completedReports = p.count e.county ∧
    e.points = 10 * e.completedReports) ∧
  (acc.map CountyStats.county).Nodup ∧
  (∀ c, c ∈ acc.map CountyStats.county ↔ c ∈ p)

/-- A report in `approved` status assigned to admin `adminB`, used as a
concrete instance for the moderation claims. -/
def sampleApprovedReport : Report :=
  { id := "r1", docId := "d1", imageUrl := "http://blob/r1.jpg",
    category := "Pothole", description := "deep pothole",
    addressLine1 := "1 Main St", addressLine2 := "",
    county := some "Co. Dublin", eircode := "D01F5P2", location := none,
    timestamp := 0, userId := "owner1", status := Status.approved,
    assigned := some "adminB", upvotes := 0 }

/-- A fully populated, valid submission form with an accurate location fix. -/
def sampleForm : SubmitForm :=
  { imageUri := "file:///img.jpg", selectedCategory := "Pothole",
    description := "deep pothole", addressLine1 := "1 Main St",
    addressLine2 := "", county := "Co. Dublin", eircode := "D01F5P2",
    location := some ⟨53, -6⟩, locationAccuracy := some 50,
    uniqueId := "u1" }

/-- `sampleForm` with a coarse 150-meter location accuracy. -/
def sampleFormCoarse : SubmitForm := { sampleForm with locationAccuracy := some 150 }

/-- A concrete unread approval message expiring at 5000 ms. -/
def sampleMsg : Message :=
  { userId := "u1", title := "Report Approved", content := "c",
    type := MessageType.approval, reportId := "r1", createdAt := 0,
    read := false, expiresAt := 5000 }

/-- A database holding only `sampleMsg`. -/
def sampleMsgDB : DB := ⟨[], [sampleMsg]⟩

/-- A database of four completed reports (three in Co. Dublin, one in
Co. Cork) for the leaderboard claim's concrete instance. -/
def sampleCompletedDB : DB :=
  ⟨[{ sampleApprovedReport with docId := "c1", status := Status.completed },
    { sampleApprovedReport with
        docId := "c2", status := Status.completed, county := some "Co. Cork" },
    { sampleApprovedReport with docId := "c3", status := Status.completed },
    { sampleApprovedReport with docId := "c4", status := Status.completed }],
   []⟩

/-- A feed state holding one report with seven upvotes, no `userUpvotes`
documents, and an empty local cache. -/
def sampleFeedState : FeedState :=
  ⟨[{ sampleApprovedReport with docId := "d9", upvotes := 7 }], [],
   fun _ => false⟩

/-- An admin session for `adminA` with no moderation action in flight. -/
def sampleSession : AdminSession := ⟨"adminA", none⟩

/-- A database holding only the approved report assigned to `adminB`. -/
def sampleApprovedDB : DB := ⟨[sampleApprovedReport], []⟩

/-- The sample report as a pending, unassigned submission. -/
def samplePendingReport : Report :=
  { sampleApprovedReport with status := Status.pending, assigned := none }

/-- A database holding only the pending sample report. -/
def samplePendingDB : DB := ⟨[samplePendingReport], []⟩

/-! ## Helper lemmas -/

/-- Any run prefix of rate-limited attempts is consumed by the retry
recursion, contributing a 1000 ms request delay and a 5000 ms backoff per
rate-limited attempt, and the run continues on the remaining outcomes. -/
theorem verify_skips_rate_limited (n : Nat) (msg : String)
    (rest : List AttemptResult) :
    verifyImageWithChatGPT
        (List.replicate n (AttemptResult.failure true msg) ++ rest)
      = ((List.replicate n [1000, 5000]).flatten ++ (verifyImageWithChatGPT rest).1,
         (verifyImageWithChatGPT rest).2) := by
  induction n with
  | zero => simp
  | succ k ih => simp [List.replicate_succ, verifyImageWithChatGPT, ih]

/-! ## Claims -/

/-- C7: `isValidCounty` returns true iff the input, with the literal
`"Co. "` prefix prepended when absent, equals one of the 32 canonical Irish
county names up to lower-casing; null (`none`) and empty input are invalid,
and the comparison is exact equality of lower-cased strings (no partial or
fuzzy matching). -/
theorem c7_isValidCounty_characterization :
    irishCounties.length = 32 ∧ isValidCounty none = false ∧
    isValidCounty (some "") = false ∧
    ∀ s : String,
      (isValidCounty (some s) = true ↔
        s ≠ "" ∧ ∃ canon ∈ irishCounties,
          toLowerStr (if strStartsWith s "Co. " then s else "Co. " ++ s)
            = toLowerStr canon) := by
  refine ⟨by decide, rfl, rfl, fun s => ?_⟩
  by_cases hs : s = ""
  · subst hs
    simp [isValidCounty]
  · simp only [isValidCounty, if_neg hs, List.any_eq_true, beq_iff_eq]
    constructor
    · rintro ⟨canon, hmem, h⟩
      exact ⟨hs, canon, hmem, h.symm⟩
    · rintro ⟨-, canon, hmem, h⟩
      exact ⟨canon, hmem, h.symm⟩

/-- C7 witness: the prefix-free, differently-cased input "dublin" is
accepted, via the characterization applied at that input. -/
theorem c7_witness : isValidCounty (some "dublin") = true :=
  (c7_isValidCounty_characterization.2.2.2 "dublin").2
    ⟨by decide, "Co. Dublin", by decide, by decide⟩

/-- C3: the code evaluated at the failing input. After two consecutive
rate-limit failures the code retries again — its recursion carries no retry
counter, although its own comment announces "retry once" — and returns the
third attempt's verdict instead of propagating an error; the delay trace
shows a 5000 ms backoff before each of the two retries. -/
theorem c3_failing_input_eval :
    verifyImageWithChatGPT
        [AttemptResult.failure true "rate limited",
         AttemptResult.failure true "rate limited",
         AttemptResult.success true]
      = ([1000, 5000, 1000, 5000, 1000], Except.ok true) ∧
    ∀ msg, (verifyImageWithChatGPT
        [AttemptResult.failure true "rate limited",
         AttemptResult.failure true "rate limited",
         AttemptResult.success true]).2 ≠ Except.error msg := by
  exact ⟨rfl, fun msg h => by simp [verifyImageWithChatGPT] at h⟩

/-- The retry behavior the code actually implements: a rate-limit failure
causes a retry after a 5000 ms delay, and this repeats for every consecutive
rate-limit failure without bound (no retry cap): the run's result is the
first non-rate-limit attempt's outcome, however many rate-limit failures
precede it, and a non-rate-limit failure propagates as an error immediately
(zero preceding rate limits included). -/
theorem verifyImageWithChatGPT_retry_characterization :
    (∀ (n : Nat) (msg : String) (v : Bool) (rest : List AttemptResult),
      verifyImageWithChatGPT
          (List.replicate n (AttemptResult.failure true msg) ++
            AttemptResult.success v :: rest)
        = ((List.replicate n [1000, 5000]).flatten ++ [1000], Except.ok v)) ∧
    (∀ (n : Nat) (msg errMsg : String) (rest : List AttemptResult),
      verifyImageWithChatGPT
          (List.replicate n (AttemptResult.failure true msg) ++
            AttemptResult.failure false errMsg :: rest)
        = ((List.replicate n [1000, 5000]).flatten ++ [1000],
           Except.error errMsg)) := by
  constructor
  · intro n msg v rest
    simp [verify_skips_rate_limited, verifyImageWithChatGPT]
  · intro n msg errMsg rest
    simp [verify_skips_rate_limited, verifyImageWithChatGPT]

/-- C10: every message in the fetched user-facing list expires strictly
later than the query time (and belongs to the queried user): the query
filters on `expiresAt > now` before the hourly sweep ever runs. -/
theorem c10_fetched_messages_unexpired (db : DB) (uid : String) (now : Nat)
    (m : Message) (hm : m ∈ fetchMessages db uid now) :
    now < m.expiresAt ∧ m.userId = uid := by
  have hmem : m ∈ db.messages.filter
      (fun mm => mm.userId == uid && decide (now < mm.expiresAt)) := by
    simpa [fetchMessages, List.mem_insertionSort] using hm
  have h := List.of_mem_filter hmem
  simp only [Bool.and_eq_true, beq_iff_eq, decide_eq_true_iff] at h
  exact ⟨h.2, h.1⟩

/-- C10 witness: at query time 3000 the sample message (expiring at 5000) is
in the fetched list, and the claim theorem yields its unexpiredness. -/
theorem c10_witness :
    sampleMsg ∈ fetchMessages sampleMsgDB "u1" 3000 ∧
    3000 < sampleMsg.expiresAt := by
  have hm : sampleMsg ∈ fetchMessages sampleMsgDB "u1" 3000 := by decide
  exact ⟨hm, (c10_fetched_messages_unexpired sampleMsgDB "u1" 3000 sampleMsg hm).1⟩

/-- A coarse reported accuracy (greater than 100 meters) makes
`isLocationValid` false, whatever the other fields hold. -/
theorem isLocationValid_eq_false_of_coarse (f : SubmitForm) (acc : ℚ)
    (h : f.locationAccuracy = some acc) (hacc : 100 < acc) :
    isLocationValid f = false := by
  unfold isLocationValid
  cases hl : f.location with
  | none => rfl
  | some c => simp [h, hacc]

/-- Any failed submission guard (a missing required field, an invalid
county, or an invalid location) makes `uploadReport` abort with the matching
validation outcome, no writes, and the form untouched. -/
theorem uploadReport_aborts_of_failed_guard (near : Coords → Coords → Bool)
    (f : SubmitForm) (uid : String) (db : DB) (verify : Except String Bool)
    (freshId : String) (now : Nat) (newDocId downloadURL : String)
    (h : f.imageUri = "" ∨ f.selectedCategory = "" ∨ f.description = "" ∨
      f.addressLine1 = "" ∨ f.county = "" ∨ f.eircode = "" ∨
      isValidCounty (some f.county) = false ∨ isLocationValid f = false) :
    ∃ o, uploadReport near f uid db verify freshId now newDocId downloadURL
        = ⟨o, [], f⟩ ∧
      (o = SubmitOutcome.missingFields ∨ o = SubmitOutcome.invalidCounty ∨
        o = SubmitOutcome.invalidLocation) := by
  by_cases hA : f.imageUri = "" ∨ f.selectedCategory = "" ∨ f.description = "" ∨
      f.addressLine1 = "" ∨ f.county = "" ∨ f.eircode = ""
  · exact ⟨SubmitOutcome.missingFields, by simp [uploadReport, hA], Or.inl rfl⟩
  · by_cases hC : isValidCounty (some f.county) = false
    · refine ⟨SubmitOutcome.invalidCounty, ?_, Or.inr (Or.inl rfl)⟩
      simp [uploadReport, hA, hC]
    · have hC' : isValidCounty (some f.county) = true := by
        cases hx : isValidCounty (some f.county)
        · exact absurd hx hC
        · rfl
      by_cases hL : isLocationValid f = false
      · refine ⟨SubmitOutcome.invalidLocation, ?_, Or.inr (Or.inr rfl)⟩
        simp [uploadReport, hA, hC', hL]
      · have hL' : isLocationValid f = true := by
          cases hx : isLocationValid f
          · exact absurd hx hL
          · rfl
        rcases h with h | h | h | h | h | h | h | h
        · exact absurd (Or.inl h) hA
        · exact absurd (Or.inr (Or.inl h)) hA
        · exact absurd (Or.inr (Or.inr (Or.inl h))) hA
        · exact absurd (Or.inr (Or.inr (Or.inr (Or.inl h)))) hA
        · exact absurd (Or.inr (Or.inr (Or.inr (Or.inr (Or.inl h))))) hA
        · exact absurd (Or.inr (Or.inr (Or.inr (Or.inr (Or.inr h))))) hA
        · exact absurd h hC
        · exact absurd h hL

/-- C5: a `false` verification verdict aborts the submission with no writes
at all (no blob upload, no report record), clears the image, category and
description fields, installs the freshly generated submission id, and
surfaces the non-fatal `validationFailed` outcome (not the hard
`uploadFailed` error). -/
theorem c5_false_verdict_resets (f : SubmitForm) (uid : String) (db : DB)
    (freshId : String) (now : Nat) (newDocId downloadURL : String)
    (h1 : f.imageUri ≠ "") (h2 : f.selectedCategory ≠ "")
    (h3 : f.description ≠ "") (h4 : f.addressLine1 ≠ "") (h5 : f.county ≠ "")
    (h6 : f.eircode ≠ "")
    (hcounty : isValidCounty (some f.county) = true)
    (hloc : isLocationValid f = true)
    (hdup : (match f.location with
             | some loc => checkDuplicateReportWith haversineNear db uid loc
             | none => false) = false) :
    uploadReport haversineNear f uid db (Except.ok false) freshId now newDocId
        downloadURL
      = ⟨SubmitOutcome.validationFailed, [],
         { f with imageUri := "", selectedCategory := "", description := "",
                  uniqueId := freshId }⟩ := by
  simp [uploadReport, h1, h2, h3, h4, h5, h6, hcounty, hloc, hdup]

/-- C5 witness: the theorem applied to the fully valid sample form against
an empty database. -/
theorem c5_witness :
    uploadReport haversineNear sampleForm "user1" ⟨[], []⟩ (Except.ok false)
        "fresh" 0 "nd" "url"
      = ⟨SubmitOutcome.validationFailed, [],
         { sampleForm with imageUri := "", selectedCategory := "",
                           description := "", uniqueId := "fresh" }⟩ :=
  c5_false_verdict_resets sampleForm "user1" ⟨[], []⟩ "fresh" 0 "nd" "url"
    (by decide) (by decide) (by decide) (by decide) (by decide) (by decide)
    (by decide) (by decide) rfl

/-- C6: every failed submission precondition (missing required field,
county failing `isValidCounty`, or invalid location) aborts `uploadReport`
with a validation outcome, no writes, and the form untouched; in particular
a 150-meter location accuracy always aborts this way, regardless of the
other fields. -/
theorem c6_failed_preconditions_abort :
    (∀ (f : SubmitForm) (uid : String) (db : DB) (verify : Except String Bool)
       (freshId : String) (now : Nat) (newDocId downloadURL : String),
      (f.imageUri = "" ∨ f.selectedCategory = "" ∨ f.description = "" ∨
        f.addressLine1 = "" ∨ f.county = "" ∨ f.eircode = "" ∨
        isValidCounty (some f.county) = false ∨ isLocationValid f = false) →
      ∃ o, uploadReport haversineNear f uid db verify freshId now newDocId
          downloadURL = ⟨o, [], f⟩ ∧
        (o = SubmitOutcome.missingFields ∨ o = SubmitOutcome.invalidCounty ∨
          o = SubmitOutcome.invalidLocation)) ∧
    ∀ (f : SubmitForm) (uid : String) (db : DB) (verify : Except String Bool)
      (freshId : String) (now : Nat) (newDocId downloadURL : String),
      f.locationAccuracy = some 150 →
      ∃ o, uploadReport haversineNear f uid db verify freshId now newDocId
          downloadURL = ⟨o, [], f⟩ ∧
        (o = SubmitOutcome.missingFields ∨ o = SubmitOutcome.invalidCounty ∨
          o = SubmitOutcome.invalidLocation) := by
  constructor
  · intro f uid db verify freshId now newDocId downloadURL h
    exact uploadReport_aborts_of_failed_guard haversineNear f uid db verify
      freshId now newDocId downloadURL h
  · intro f uid db verify freshId now newDocId downloadURL h
    refine uploadReport_aborts_of_failed_guard haversineNear f uid db verify
      freshId now newDocId downloadURL (Or.inr (Or.inr (Or.inr (Or.inr
        (Or.inr (Or.inr (Or.inr ?_)))))))
    exact isLocationValid_eq_false_of_coarse f 150 h (by norm_num)

/-- C6 witness: the theorem's 150-meter clause applied to the otherwise
fully populated coarse sample form. -/
theorem c6_witness :
    ∃ o, uploadReport haversineNear sampleFormCoarse "user1" ⟨[], []⟩
        (Except.ok true) "fresh" 0 "nd" "url" = ⟨o, [], sampleFormCoarse⟩ ∧
      (o = SubmitOutcome.missingFields ∨ o = SubmitOutcome.invalidCounty ∨
        o = SubmitOutcome.invalidLocation) :=
  c6_failed_preconditions_abort.2 sampleFormCoarse "user1" ⟨[], []⟩
    (Except.ok true) "fresh" 0 "nd" "url" rfl

/-- C4: the duplicate check returns true iff some report of the same user in
`pending` status with a stored location lies within haversine distance 50
meters of the submission's fix (candidates without a stored location are
skipped by the match); and when the submission itself has no fix,
`uploadReport` never consults the existing reports at all — the check is
skipped and the run proceeds exactly as over an empty report collection. -/
theorem c4_duplicate_characterization :
    (∀ (db : DB) (uid : String) (cur : Coords),
      checkDuplicateReport db uid cur = true ↔
        ∃ r ∈ db.reports, r.userId = uid ∧ r.status = Status.pending ∧
          ∃ c, r.location = some c ∧
            calculateDistance cur.latitude cur.longitude c.latitude
              c.longitude ≤ 50) ∧
    ∀ (f : SubmitForm) (uid : String) (db : DB) (verify : Except String Bool)
      (freshId : String) (now : Nat) (newDocId downloadURL : String),
      f.location = none →
      uploadReport haversineNear f uid db verify freshId now newDocId
          downloadURL
        = uploadReport haversineNear f uid ⟨[], db.messages⟩ verify freshId
            now newDocId downloadURL := by
  constructor
  · intro db uid cur
    unfold checkDuplicateReport checkDuplicateReportWith
    rw [List.any_eq_true]
    constructor
    · rintro ⟨r, hr, hbody⟩
      have hmem := List.mem_of_mem_filter hr
      have hcond := List.of_mem_filter hr
      simp only [Bool.and_eq_true, beq_iff_eq] at hcond
      cases hl : r.location with
      | none => rw [hl] at hbody; exact absurd hbody (by simp)
      | some c =>
        rw [hl] at hbody
        refine ⟨r, hmem, hcond.1, hcond.2, c, hl, ?_⟩
        simpa [haversineNear, decide_eq_true_iff] using hbody
    · rintro ⟨r, hmem, hu, hs, c, hl, hd⟩
      refine ⟨r, List.mem_filter.2 ⟨hmem, by simp [hu, hs]⟩, ?_⟩
      rw [hl]
      simpa [haversineNear] using decide_eq_true hd
  · intro f uid db verify freshId now newDocId downloadURL h
    simp only [uploadReport, h]

/-- C4 witness: a form without a location fix is processed identically over
a database with a pending report and over the empty report collection. -/
theorem c4_witness :
    uploadReport haversineNear
        { sampleForm with location := none, locationAccuracy := none }
        "user1" ⟨[sampleApprovedReport], []⟩ (Except.ok true) "fresh" 0 "nd"
        "url"
      = uploadReport haversineNear
          { sampleForm with location := none, locationAccuracy := none }
          "user1" ⟨[], []⟩ (Except.ok true) "fresh" 0 "nd" "url" :=
  c4_duplicate_characterization.2
    { sampleForm with location := none, locationAccuracy := none } "user1"
    ⟨[sampleApprovedReport], []⟩ (Except.ok true) "fresh" 0 "nd" "url" rfl

/-- C2: approving a pending report commits exactly two writes in program
order — first the status update to `approved`, then the creation of exactly
one `approval` message addressed to the report's owner whose expiry is its
creation time plus exactly two hours — and applying them leaves the report
approved and the message appended. -/
theorem c2_approve_effects (sess : AdminSession) (db : DB) (now : Nat)
    (r : Report)
    (hguard : sess.processingId ≠ some r.docId)
    (hfind : findByGenId db r.id = some r)
    (hpending : r.status = Status.pending) :
    ∃ m : Message,
      handleApprove sess db now r.id r.docId
        = some [Effect.updateStatus r.docId Status.approved,
                Effect.addMessage m] ∧
      m.type = MessageType.approval ∧ m.userId = r.userId ∧
      m.createdAt = now ∧ m.expiresAt = m.createdAt + 2 * msPerHour ∧
      (applyEffects db [Effect.updateStatus r.docId Status.approved,
          Effect.addMessage m]).messages = db.messages ++ [m] ∧
      ∀ x ∈ (applyEffects db [Effect.updateStatus r.docId Status.approved,
          Effect.addMessage m]).reports,
        (x.docId = r.docId → x.status = Status.approved) ∧
        (x.docId ≠ r.docId → x ∈ db.reports) := by
  have hmem : r ∈ db.reports := List.mem_of_find?_eq_some hfind
  have hany : db.reports.any (fun x => x.docId == r.docId) = true :=
    List.any_eq_true.2 ⟨r, hmem, by simp⟩
  have hg : (sess.processingId == some r.docId) = false :=
    beq_eq_false_iff_ne.2 hguard
  refine ⟨{ userId := r.userId, title := "Report Approved",
            content := "Your report about \"" ++ r.category ++
              "\" has been approved.",
            type := MessageType.approval, reportId := r.id, createdAt := now,
            read := false, expiresAt := addHours now 2 }, ?_, rfl, rfl, rfl,
          rfl, ?_, ?_⟩
  · unfold handleApprove findByGenId
    unfold findByGenId at hfind
    rw [hg, hfind]
    simp [hany]
  · simp [applyEffects, applyEffect]
  · intro x hx
    simp only [applyEffects, applyEffect, List.foldl] at hx
    obtain ⟨y, hy, rfl⟩ := List.mem_map.1 hx
    by_cases hc : y.docId = r.docId
    · simp [hc]
    · constructor
      · intro hdoc
        rw [beq_eq_false_iff_ne.2 hc] at hdoc
        · exact absurd hdoc hc
      · intro _
        simpa [beq_eq_false_iff_ne.2 hc] using hy

/-- C2 witness: the theorem applied to the concrete pending sample report at
time 1000. -/
theorem c2_witness :
    ∃ m : Message,
      handleApprove sampleSession samplePendingDB 1000 samplePendingReport.id
          samplePendingReport.docId
        = some [Effect.updateStatus samplePendingReport.docId Status.approved,
                Effect.addMessage m] ∧
      m.type = MessageType.approval ∧ m.userId = samplePendingReport.userId ∧
      m.createdAt = 1000 ∧ m.expiresAt = m.createdAt + 2 * msPerHour ∧
      (applyEffects samplePendingDB
          [Effect.updateStatus samplePendingReport.docId Status.approved,
           Effect.addMessage m]).messages
        = samplePendingDB.messages ++ [m] ∧
      ∀ x ∈ (applyEffects samplePendingDB
          [Effect.updateStatus samplePendingReport.docId Status.approved,
           Effect.addMessage m]).reports,
        (x.docId = samplePendingReport.docId → x.status = Status.approved) ∧
        (x.docId ≠ samplePendingReport.docId →
          x ∈ samplePendingDB.reports) :=
  c2_approve_effects sampleSession samplePendingDB 1000 samplePendingReport
    (by decide) rfl rfl

/-- C1 counterexample: `handleComplete` invoked by admin `adminA` on the
approved report assigned to `adminB` is not rejected — the status update to
`completed` and the notification message are both committed even though the
acting admin differs from the assignee. -/
theorem c1_counterexample :
    sampleSession.uid ≠ "adminB" ∧
    sampleApprovedReport.assigned = some "adminB" ∧
    sampleApprovedReport.status = Status.approved ∧
    ∃ es, handleComplete sampleSession sampleApprovedDB 1000 "r1" "d1"
        = some es ∧
      (applyEffects sampleApprovedDB es).reports.map Report.status
        = [Status.completed] ∧
      (applyEffects sampleApprovedDB es).messages.length = 1 :=
  ⟨by decide, rfl, rfl, _, rfl, rfl, rfl⟩

/-- C1 (amended): the assignee restriction on Complete is enforced only by
the dashboard's data flow, not by the transition: `handleComplete` itself
never consults the acting admin, so a complete attempt by an admin different
from the report's assignee still commits the status update and the owner
message; what holds is that the assigned-reports query from which the
dashboard offers Complete buttons returns only reports assigned to the
signed-in admin in `approved` status. -/
theorem c1_amended (sess : AdminSession) (db : DB) (now : Nat) (r : Report)
    (b : String)
    (hguard : sess.processingId ≠ some r.docId)
    (hfind : findByDocId db r.docId = some r)
    (happroved : r.status = Status.approved)
    (hassigned : r.assigned = some b)
    (hdiff : sess.uid ≠ b) :
    (∃ m : Message,
      handleComplete sess db now r.id r.docId
        = some [Effect.updateStatus r.docId Status.completed,
                Effect.addMessage m] ∧
      m.type = MessageType.general ∧ m.userId = r.userId ∧
      m.expiresAt = m.createdAt + 2 * msPerHour ∧
      ∀ x ∈ (applyEffects db [Effect.updateStatus r.docId Status.completed,
          Effect.addMessage m]).reports,
        x.docId = r.docId → x.status = Status.completed) ∧
    ∀ x ∈ fetchAssignedReports db sess.uid,
      x.assigned = some sess.uid ∧ x.status = Status.approved := by
  have hg : (sess.processingId == some r.docId) = false :=
    beq_eq_false_iff_ne.2 hguard
  constructor
  · refine ⟨{ userId := r.userId, title := "Report Completed",
              content := "Your report about \"" ++ r.category ++
                "\" has been marked as completed.",
              type := MessageType.general, reportId := r.id,
              createdAt := now, read := false,
              expiresAt := addHours now 2 }, ?_, rfl, rfl, rfl, ?_⟩
    · unfold handleComplete findByDocId
      unfold findByDocId at hfind
      rw [hg, hfind]
      simp
    · intro x hx
      simp only [applyEffects, applyEffect, List.foldl] at hx
      obtain ⟨y, hy, rfl⟩ := List.mem_map.1 hx
      by_cases hc : y.docId = r.docId
      · simp [hc]
      · intro hdoc
        rw [beq_eq_false_iff_ne.2 hc] at hdoc
        exact absurd hdoc hc
  · intro x hx
    have h := List.of_mem_filter hx
    simp only [Bool.and_eq_true, beq_iff_eq] at h
    exact h

/-- C1 witness: the amended theorem applied to the concrete approved report
assigned to `adminB` with `adminA` acting. -/
theorem c1_witness :
    (∃ m : Message,
      handleComplete sampleSession sampleApprovedDB 1000
          sampleApprovedReport.id sampleApprovedReport.docId
        = some [Effect.updateStatus sampleApprovedReport.docId
                  Status.completed,
                Effect.addMessage m] ∧
      m.type = MessageType.general ∧
      m.userId = sampleApprovedReport.userId ∧
      m.expiresAt = m.createdAt + 2 * msPerHour ∧
      ∀ x ∈ (applyEffects sampleApprovedDB
          [Effect.updateStatus sampleApprovedReport.docId Status.completed,
           Effect.addMessage m]).reports,
        x.docId = sampleApprovedReport.docId →
          x.status = Status.completed) ∧
    ∀ x ∈ fetchAssignedReports sampleApprovedDB sampleSession.uid,
      x.assigned = some sampleSession.uid ∧ x.status = Status.approved :=
  c1_amended sampleSession sampleApprovedDB 1000 sampleApprovedReport
    "adminB" (by decide) rfl rfl rfl (by decide)

/-- The reports written by one `handleUpvote` call: the matching document's
counter is incremented by -1 or +1 according to the local cache. -/
theorem handleUpvote_reports (st : FeedState) (uid rid docId : String) :
    (handleUpvote st uid rid docId).reports
      = st.reports.map fun r =>
          if r.docId == docId then
            { r with upvotes := r.upvotes +
                (if st.localUpvotes rid then -1 else 1) }
          else r := rfl

/-- The local cache after one `handleUpvote` call: the toggled entry is
flipped, the rest unchanged. -/
theorem handleUpvote_local (st : FeedState) (uid rid docId : String) :
    (handleUpvote st uid rid docId).localUpvotes
      = fun k => if k == rid then !(st.localUpvotes rid)
                 else st.localUpvotes k := rfl

/-- Looking up the updated user's document after a field-map update applied
to exactly the documents keyed by that user. -/
theorem lookup_setField_map (docs : List (String × List (String × Int)))
    (uid rid : String) (v : Int) :
    List.lookup uid (docs.map fun kv =>
        if kv.1 == uid then (kv.1, setField kv.2 rid v) else kv)
      = (List.lookup uid docs).map fun fs => setField fs rid v := by
  induction docs with
  | nil => rfl
  | cons kv rest ih =>
    obtain ⟨k, fs⟩ := kv
    by_cases hk : k = uid
    · subst hk
      rw [List.map_cons, if_pos (beq_self_eq_true k)]
      simp [List.lookup]
    · have h1 : (k == uid) = false := beq_eq_false_iff_ne.2 hk
      have h2 : (uid == k) = false := beq_eq_false_iff_ne.2 (Ne.symm hk)
      rw [List.map_cons, if_neg (by simp [h1])]
      simp only [List.lookup, h2]
      exact ih

/-- The stored flag written by one `handleUpvote` call: `0` when the local
cache said the report was upvoted, `1` otherwise (the cache must agree with
the store, since a missing document is recreated with flag `1` regardless of
the direction). -/
theorem flagValue_handleUpvote (st : FeedState) (uid rid docId : String)
    (hcache : flagValue st uid rid
      = if st.localUpvotes rid then 1 else 0) :
    flagValue (handleUpvote st uid rid docId) uid rid
      = if st.localUpvotes rid then 0 else 1 := by
  unfold flagValue handleUpvote
  cases hl : st.upvoteDocs.lookup uid with
  | some fields =>
    simp only [hl, lookup_setField_map, Option.map_some]
    simp [setField, List.lookup]
  | none =>
    have hb : st.localUpvotes rid = false := by
      unfold flagValue at hcache
      rw [hl] at hcache
      cases hb' : st.localUpvotes rid
      · rfl
      · rw [hb'] at hcache
        simp at hcache
    simp only [hl, hb]
    simp [List.lookup]

/-- C9: with the local cache consistent with the stored flag, toggling the
upvote twice in succession restores both the report's aggregate counter (all
report documents, in fact) and the stored per-report flag, as well as the
local cache: the first call applies flag `1` / counter `+1` (or flag `0` /
counter `-1`), and the second call applies the exact inverse. -/
theorem c9_upvote_toggle_involution (st : FeedState) (uid rid docId : String)
    (hcache : flagValue st uid rid
      = if st.localUpvotes rid then 1 else 0) :
    (handleUpvote (handleUpvote st uid rid docId) uid rid docId).reports
      = st.reports ∧
    flagValue (handleUpvote (handleUpvote st uid rid docId) uid rid docId)
        uid rid
      = flagValue st uid rid ∧
    (handleUpvote (handleUpvote st uid rid docId) uid rid docId).localUpvotes
        rid
      = st.localUpvotes rid := by
  have hloc1 : (handleUpvote st uid rid docId).localUpvotes rid
      = !(st.localUpvotes rid) := by
    rw [handleUpvote_local]
    simp
  have hcache1 : flagValue (handleUpvote st uid rid docId) uid rid
      = if (handleUpvote st uid rid docId).localUpvotes rid then 1 else 0 := by
    rw [flagValue_handleUpvote st uid rid docId hcache, hloc1]
    cases hb : st.localUpvotes rid <;> simp
  refine ⟨?_, ?_, ?_⟩
  · rw [handleUpvote_reports, handleUpvote_reports, hloc1, List.map_map]
    have hpt : ∀ r ∈ st.reports,
        ((fun r : Report =>
            if r.docId == docId then
              { r with upvotes := r.upvotes +
                  (if !st.localUpvotes rid then -1 else 1) }
            else r) ∘
          (fun r : Report =>
            if r.docId == docId then
              { r with upvotes := r.upvotes +
                  (if st.localUpvotes rid then -1 else 1) }
            else r)) r = (fun r => r) r := by
      intro r _
      by_cases hr : r.docId = docId
      · cases hb : st.localUpvotes rid
        · simp [Function.comp, hb, hr]
          rw [← hr]
        · simp [Function.comp, hb, hr]
          rw [← hr]
      · have hr' : (r.docId == docId) = false := beq_eq_false_iff_ne.2 hr
        simp [Function.comp, hr']
    rw [List.map_congr_left hpt, List.map_id']
  · rw [flagValue_handleUpvote _ uid rid docId hcache1, hloc1, hcache]
    cases hb : st.localUpvotes rid <;> simp
  · rw [handleUpvote_local, handleUpvote_local]
    simp

/-- C9 witness: the theorem applied to the sample feed state (seven upvotes,
no stored documents, empty cache). -/
theorem c9_witness :
    (handleUpvote (handleUpvote sampleFeedState "u" "r9" "d9") "u" "r9"
        "d9").reports = sampleFeedState.reports ∧
    flagValue (handleUpvote (handleUpvote sampleFeedState "u" "r9" "d9") "u"
        "r9" "d9") "u" "r9" = flagValue sampleFeedState "u" "r9" ∧
    (handleUpvote (handleUpvote sampleFeedState "u" "r9" "d9") "u" "r9"
        "d9").localUpvotes "r9" = sampleFeedState.localUpvotes "r9" :=
  c9_upvote_toggle_involution sampleFeedState "u" "r9" "d9" rfl

/-- `bump` preserves the bucket invariant: crediting one more report with
bucket key `k` keeps counts, points, bucket uniqueness and key coverage in
step. -/
theorem bucketsInv_bump (acc : List CountyStats) (p : List String)
    (k : String) (h : bucketsInv acc p) :
    bucketsInv (bump acc k) (p ++ [k]) := by
  obtain ⟨hcount, hnodup, hmem⟩ := h
  by_cases hk : acc.any (fun s => s.county == k) = true
  · have hmap : bump acc k = acc.map fun s =>
        if s.county == k then
          { s with points := s.points + 10,
                   completedReports := s.completedReports + 1 }
        else s := by
      simp [bump, hk]
    have hsamekeys : (bump acc k).map CountyStats.county
        = acc.map CountyStats.county := by
      rw [hmap, List.map_map]
      refine List.map_congr_left fun s _ => ?_
      by_cases hc : s.county = k
      · simp [Function.comp, beq_iff_eq.2 hc]
      · simp [Function.comp, beq_eq_false_iff_ne.2 hc]
    have hkin : k ∈ acc.map CountyStats.county := by
      obtain ⟨s, hs, hsk⟩ := List.any_eq_true.1 hk
      exact List.mem_map.2 ⟨s, hs, beq_iff_eq.1 hsk⟩
    refine ⟨?_, ?_, ?_⟩
    · intro e he
      rw [hmap] at he
      obtain ⟨s, hs, rfl⟩ := List.mem_map.1 he
      have h1 := (hcount s hs).1
      have h2 := (hcount s hs).2
      by_cases hc : s.county = k
      · rw [if_pos (beq_iff_eq.2 hc)]
        constructor
        · show s.completedReports + 1 = (p ++ [k]).count s.county
          rw [List.count_append, List.count_singleton,
            if_pos (beq_iff_eq.2 hc.symm), h1]
        · show s.points + 10 = 10 * (s.completedReports + 1)
          omega
      · rw [if_neg (by simp [beq_eq_false_iff_ne.2 hc])]
        refine ⟨?_, h2⟩
        rw [List.count_append, List.count_singleton,
          if_neg (by simp [beq_eq_false_iff_ne.2 (Ne.symm hc)]), h1]
        omega
    · rw [hsamekeys]
      exact hnodup
    · intro c
      rw [hsamekeys, List.mem_append]
      constructor
      · intro hc
        exact Or.inl ((hmem c).1 hc)
      · rintro (hc | hc)
        · exact (hmem c).2 hc
        · rw [List.mem_singleton.1 hc]
          exact hkin
  · have hk' : acc.any (fun s => s.county == k) = false := by
      cases hx : acc.any (fun s => s.county == k)
      · rfl
      · exact absurd hx hk
    have hmap : bump acc k
        = acc ++ [{ county := k, points := 10, completedReports := 1 }] := by
      simp [bump, hk']
    have hknotin : k ∉ acc.map CountyStats.county := by
      intro hin
      obtain ⟨s, hs, hsk⟩ := List.mem_map.1 hin
      have : acc.any (fun s => s.county == k) = true :=
        List.any_eq_true.2 ⟨s, hs, beq_iff_eq.2 hsk⟩
      rw [this] at hk'
      cases hk'
    have hkp : k ∉ p := fun hin => hknotin ((hmem k).2 hin)
    refine ⟨?_, ?_, ?_⟩
    · intro e he
      rw [hmap] at he
      rcases List.mem_append.1 he with he | he
      · have h1 := (hcount e he).1
        have h2 := (hcount e he).2
        have hec : e.county ≠ k := fun hek =>
          hknotin (hek ▸ List.mem_map.2 ⟨e, he, rfl⟩)
        refine ⟨?_, h2⟩
        rw [List.count_append, List.count_singleton,
          if_neg (by simp [beq_eq_false_iff_ne.2 (Ne.symm hec)]), h1]
        omega
      · rw [List.mem_singleton.1 he]
        refine ⟨?_, rfl⟩
        show 1 = (p ++ [k]).count k
        rw [List.count_append, List.count_eq_zero.2 hkp,
          List.count_singleton, if_pos (beq_self_eq_true k)]
    · rw [hmap, List.map_append, List.nodup_append]
      refine ⟨hnodup, List.nodup_singleton k, ?_⟩
      intro c hc1 hc2
      simp only [List.map_cons, List.map_nil, List.mem_singleton] at hc2
      exact hknotin (hc2 ▸ hc1)
    · intro c
      rw [hmap, List.map_append, List.mem_append, List.mem_append]
      simp only [List.map_cons, List.map_nil, List.mem_singleton]
      constructor
      · rintro (hc | hc)
        · exact Or.inl ((hmem c).1 hc)
        · exact Or.inr hc
      · rintro (hc | hc)
        · exact Or.inl ((hmem c).2 hc)
        · exact Or.inr hc

/-- The `forEach` accumulation, started from buckets satisfying the
invariant, ends satisfying it for the extended key list. -/
theorem bucketsInv_foldl (keys : List String) :
    ∀ acc p, bucketsInv acc p → bucketsInv (keys.foldl bump acc) (p ++ keys) := by
  induction keys with
  | nil =>
    intro acc p h
    simpa using h
  | cons k rest ih =>
    intro acc p h
    have := ih (bump acc k) (p ++ [k]) (bucketsInv_bump acc p k h)
    simpa [List.append_assoc] using this

/-- The bucket list built from a key list satisfies the invariant. -/
theorem bucketsInv_buildBuckets (keys : List String) :
    bucketsInv (buildBuckets keys) keys := by
  have h0 : bucketsInv [] [] := ⟨by simp, by simp, by simp⟩
  have := bucketsInv_foldl keys [] [] h0
  simpa [buildBuckets] using this

/-- C8: the leaderboard is computed from exactly the reports in `completed`
status, keyed by `countyKey` (so a missing or empty county lands in the
literal `"Unknown"` bucket instead of being dropped); each such report
contributes exactly 10 points and 1 to its bucket's completed count (so each
entry's count is the number of completed reports with its key and its points
are ten times that); there is exactly one entry per occurring bucket key;
and the emitted list is ordered descending by points. -/
theorem c8_leaderboard (db : DB) :
    List.Sorted (fun a b : CountyStats => b.points ≤ a.points)
      (fetchLeaderboardData db) ∧
    (∀ e ∈ fetchLeaderboardData db,
      e.completedReports
        = ((db.reports.filter fun r => r.status == Status.completed).map
            countyKey).count e.county ∧
      e.points = 10 * e.completedReports) ∧
    ((fetchLeaderboardData db).map CountyStats.county).Nodup ∧
    ∀ c, c ∈ (fetchLeaderboardData db).map CountyStats.county ↔
      c ∈ (db.reports.filter fun r => r.status == Status.completed).map
        countyKey := by
  haveI hTot : IsTotal CountyStats (fun a b => b.points ≤ a.points) :=
    ⟨fun a b => le_total b.points a.points⟩
  haveI hTrans : IsTrans CountyStats (fun a b => b.points ≤ a.points) :=
    ⟨fun _ _ _ hab hbc => le_trans hbc hab⟩
  obtain ⟨hcount, hnodup, hmem⟩ := bucketsInv_buildBuckets
    ((db.reports.filter fun r => r.status == Status.completed).map countyKey)
  have hperm : (fetchLeaderboardData db).Perm
      (buildBuckets ((db.reports.filter fun r =>
        r.status == Status.completed).map countyKey)) :=
    List.perm_insertionSort _ _
  refine ⟨?_, ?_, ?_, ?_⟩
  · exact List.sorted_insertionSort _ _
  · intro e he
    exact hcount e (hperm.mem_iff.1 he)
  · exact (hperm.map CountyStats.county).nodup_iff.2 hnodup
  · intro c
    rw [(hperm.map CountyStats.county).mem_iff]
    exact hmem c

/-- C8 witness: over the four-completed-report sample database, the
`Co. Dublin` entry carries 30 points and a completed count of 3, matching the
theorem's count clause applied at that entry. -/
theorem c8_witness :
    ({ county := "Co. Dublin", points := 30, completedReports := 3 } :
        CountyStats) ∈ fetchLeaderboardData sampleCompletedDB ∧
    (3 : Nat) = ((sampleCompletedDB.reports.filter fun r =>
        r.status == Status.completed).map countyKey).count "Co. Dublin" := by
  have hm : ({ county := "Co. Dublin", points := 30, completedReports := 3 } :
      CountyStats) ∈ fetchLeaderboardData sampleCompletedDB := by decide
  exact ⟨hm, ((c8_leaderboard sampleCompletedDB).2.1 _ hm).1⟩
